import Mathlib

/-!
Shallow embedding of `linera-summary`'s performance summary
(`src/linera-summary/src/performance_summary.rs`) and of the runtime
comparison engine it drives, together with theorems settling the spec's
claims about it.

The repository sources contain only `performance_summary.rs`; the module
`ci_runtime_comparison.rs` (the `CiRuntimeComparison` type and its
`from_jobs` constructor) and the `github` module are not present, so those
parts are modelled from the spec (see the doc comments below).
-/

namespace LineraSummary

/-- A CI job record, as consumed by the summary: the `github::Job` data the
comparison engine needs (spec §3 `JobRecord`): the workflow it belongs to,
its job name (the matching key) and its wall-clock runtime in whole
seconds. -/
structure Job where
  workflow_name : String
  job_name : String
  duration_seconds : Nat
deriving DecidableEq

/-- One matched base/candidate pair for a single job (spec §3
`Comparison`).  Runtimes are whole seconds; the percentage is modelled as a
rational (the Rust code uses `f64`; all values reachable here are exact). -/
structure Comparison where
  job_name : String
  base_runtime : Nat
  pr_runtime : Nat
  runtime_difference_pct : ℚ
deriving DecidableEq

/-- The comparison result: workflow name to ordered comparisons, iterated
in list order (spec §3 `ComparisonResult`; the Rust field
`CiRuntimeComparison.0` iterated by `format_comment_body`). -/
abbrev ComparisonResult := List (String × List Comparison)

/-- First-encounter deduplication: keeps each string's first occurrence, in
order of first encounter. -/
def firstSeen : List String → List String
  | [] => []
  | x :: xs => x :: (firstSeen xs).filter (fun y => y != x)

/-- Modelled from the spec: the runtime used for `(w, j)` on one side.
`ci_runtime_comparison.rs` is not in the sources; spec §4.1 step 2 says
"last write wins by input order" for duplicate job names, so we take the
last matching record's runtime. -/
def lastRuntime (jobs : List Job) (w j : String) : Option Nat :=
  ((jobs.filter (fun r => r.workflow_name == w && r.job_name == j)).getLast?).map
    Job.duration_seconds

/-- Modelled from the spec: the comparison emitted for job `j` of workflow
`w`, if any.  Emitted only when both sides have the job (spec §4.1 step 3)
and the base runtime is nonzero (step 4: skip rather than divide by zero);
the delta is `((candidate - base) / base) * 100` (step 4). -/
def comparisonFor (base pr : List Job) (w j : String) : Option Comparison :=
  match lastRuntime base w j, lastRuntime pr w j with
  | some b, some c =>
      if b = 0 then none
      else some ⟨j, b, c, ((c : ℚ) - (b : ℚ)) / (b : ℚ) * 100⟩
  | _, _ => none

/-- Modelled from the spec: the ordered comparisons of one workflow, job
names in order of first encounter in the base sequence (spec §4.1 step
5). -/
def comparisonsFor (base pr : List Job) (w : String) : List Comparison :=
  (firstSeen ((base.filter (fun r => r.workflow_name == w)).map Job.job_name)).filterMap
    (fun j => comparisonFor base pr w j)

/-- Modelled from the spec: `CiRuntimeComparison::from_jobs`
(`ci_runtime_comparison.rs` is not in the sources).  Groups by workflow,
matches jobs present on both sides, computes the relative delta, and omits
workflows with no matched comparison (spec §4.1; only workflows occurring
in the base sequence can have a match, and they appear in order of first
encounter there). -/
def from_jobs (base pr : List Job) : ComparisonResult :=
  (firstSeen (base.map Job.workflow_name)).filterMap (fun w =>
    let cs := comparisonsFor base pr w
    if cs.isEmpty then none else some (w, cs))

/-- From the source (`PerformanceSummary::get_base_and_pr_jobs`): fetch the
base jobs, bail with "No base jobs found!" if empty, only then fetch the PR
jobs (modelled as a thunk, mirroring the sequential `await`s), bail with
"No PR jobs found!" if empty.  `Except String` models `anyhow::Result`. -/
def get_base_and_pr_jobs (fetchBase : Except String (List Job))
    (fetchPr : Unit → Except String (List Job)) :
    Except String (List Job × List Job) :=
  match fetchBase with
  | .error e => .error e
  | .ok base_jobs =>
      if base_jobs.isEmpty then .error "No base jobs found!"
      else
        match fetchPr () with
        | .error e => .error e
        | .ok pr_jobs =>
            if pr_jobs.isEmpty then .error "No PR jobs found!"
            else .ok (base_jobs, pr_jobs)

/-- From the source (`PerformanceSummary::init`): the fetched workflows are
filtered to those whose name is in the tracked set.  The Rust argument
`tracked_workflows` is a `HashSet<String>`; `HashSet::contains` is
membership, so the tracked input acts only through membership and the
filter preserves the fetched order. -/
def filterTrackedWorkflows (fetched tracked : List String) : List String :=
  fetched.filter (fun w => decide (w ∈ tracked))

/-- From the source (`PerformanceSummary::init` composed with
`get_base_and_pr_jobs` and the modelled `from_jobs`): filter the fetched
workflows to the tracked set, obtain both job lists for those workflows
(`latest_jobs` is external; `jobsFor` stands for the pair of fetches),
check emptiness, and build the comparison. -/
def init (fetched tracked : List String)
    (jobsFor : List String → List Job × List Job) :
    Except String ComparisonResult :=
  let ws := filterTrackedWorkflows fetched tracked
  let bp := jobsFor ws
  match get_base_and_pr_jobs (.ok bp.1) (fun _ => .ok bp.2) with
  | .error e => .error e
  | .ok (b, p) => .ok (from_jobs b p)

/-- From the source (line 12). -/
def PR_COMMENT_HEADER : String := "## Performance Summary for commit"

/-- The parts of the `Github` context `format_comment_body` reads: the PR
commit hash and the repository's owner and name. -/
structure GithubContext where
  pr_commit_hash : String
  owner : String
  repo : String
deriving DecidableEq

/-- Embedding of `humantime::format_duration` restricted to whole seconds
(the source always passes `Duration::from_secs(..)`, so the sub-second
items never print): split into years (365.25 d), months (30.44 d), days,
hours, minutes, seconds and print the nonzero items. -/
def durationItems (secs : Nat) : List String :=
  let years := secs / 31557600
  let ydays := secs % 31557600
  let months := ydays / 2630016
  let mdays := ydays % 2630016
  let days := mdays / 86400
  let day_secs := mdays % 86400
  let hours := day_secs / 3600
  let minutes := day_secs % 3600 / 60
  let seconds := day_secs % 60
  (if years = 0 then [] else [toString years ++ (if 1 < years then "years" else "year")]) ++
  (if months = 0 then [] else [toString months ++ (if 1 < months then "months" else "month")]) ++
  (if days = 0 then [] else [toString days ++ (if 1 < days then "days" else "day")]) ++
  (if hours = 0 then [] else [toString hours ++ "h"]) ++
  (if minutes = 0 then [] else [toString minutes ++ "m"]) ++
  (if seconds = 0 then [] else [toString seconds ++ "s"])

/-- Embedding of `humantime::format_duration` on whole seconds: "0s" for
zero, otherwise the nonzero items separated by single spaces. -/
def format_duration (secs : Nat) : String :=
  if secs = 0 then "0s" else String.intercalate " " (durationItems secs)

/-- Two-decimal fixed formatting of the percentage, modelling Rust's
format specifier for two fractional digits as used on the delta. -/
def formatFixed2 (q : ℚ) : String :=
  let n : ℤ := round (|q| * 100)
  (if q < 0 ∧ n ≠ 0 then "-" else "") ++ toString (n / 100) ++ "." ++
    (if n % 100 < 10 then "0" else "") ++ toString (n % 100)

/-- From the source (the row `push_str` of `format_comment_body`): one
markdown table row for a comparison. -/
def formatRow (c : Comparison) : String :=
  "| " ++ c.job_name ++ " | " ++ format_duration c.base_runtime ++ " | " ++
    format_duration c.pr_runtime ++ " | " ++
    formatFixed2 c.runtime_difference_pct ++ "%" ++ " |\n"

/-- The rows of one workflow's table, concatenated in order (the inner
`for` loop of `format_comment_body`). -/
def renderRows : List Comparison → String
  | [] => ""
  | c :: rest => formatRow c ++ renderRows rest

/-- One workflow section of the comment body (the body of the outer `for`
loop of `format_comment_body`); note the source appends no newline after
the `|---|---|---|---|` separator line. -/
def renderSection (wc : String × List Comparison) : String :=
  "#### Workflow: " ++ wc.1 ++ "\n\n" ++
    "| Job Name | Base Runtime | PR Runtime | Runtime Difference (%) |\n" ++
    "|---|---|---|---|" ++ renderRows wc.2 ++ "\n"

/-- The workflow sections, concatenated in iteration order (the outer `for`
loop of `format_comment_body`). -/
def renderSections : List (String × List Comparison) → String
  | [] => ""
  | wc :: rest => renderSection wc ++ renderSections rest

/-- From the source (`PerformanceSummary::format_comment_body`, lines
41–79): header line with the short commit hash and commit URL, the section
title, then one section per workflow.  The short hash is the 7-byte slice
of the hash; here the hash is a `String` and we take 7 characters, which
agrees with the byte slice on ASCII hashes (see `short_commit_hash` for
the byte-exact model of the slice). -/
def format_comment_body (ctx : GithubContext) (cmp : ComparisonResult) : String :=
  PR_COMMENT_HEADER ++ (" [" ++ (ctx.pr_commit_hash.take 7) ++ "](" ++
    ("https://github.com/" ++ ctx.owner ++ "/" ++ ctx.repo ++ "/commit/" ++
      ctx.pr_commit_hash) ++ ")\n\n" ++
    ("### CI Runtime Comparison\n\n" ++ renderSections cmp))

/-- Rust `str::is_char_boundary` on a UTF-8 byte string (bytes as `Nat`):
index 0 is always a boundary; past-the-end indices are boundaries only at
exactly the length; otherwise the byte must not be a continuation byte
(i.e. not in `0x80..0xC0`). -/
def is_char_boundary (s : List Nat) (i : Nat) : Bool :=
  if i = 0 then true
  else
    match s.get? i with
    | none => i == s.length
    | some b => decide (b < 128 ∨ 192 ≤ b)

/-- Byte-exact model of line 43, `let short_commit_hash = &commit_hash[..7]`:
Rust slices the first 7 bytes, panicking (here: `none`) unless 7 is a char
boundary of the string (which requires the string to be at least 7 bytes
long). -/
def short_commit_hash (commit_hash : List Nat) : Option (List Nat) :=
  if is_char_boundary commit_hash 7 then some (commit_hash.take 7) else none

/-! ### Helper lemmas -/

theorem string_data_append (s t : String) : (s ++ t).data = s.data ++ t.data := rfl

theorem infix_append_of_infix_left {α : Type _} {x a b : List α} (h : x <:+: a) :
    x <:+: a ++ b := by
  obtain ⟨s, t, hst⟩ := h
  exact ⟨s, t ++ b, by rw [← hst]; simp [List.append_assoc]⟩

theorem infix_append_of_infix_right {α : Type _} {x a b : List α} (h : x <:+: b) :
    x <:+: a ++ b := by
  obtain ⟨s, t, hst⟩ := h
  exact ⟨a ++ s, t, by rw [← hst]; simp [List.append_assoc]⟩

theorem lastRuntime_eq_some {jobs : List Job} {w j : String} {b : Nat}
    (h : lastRuntime jobs w j = some b) :
    ∃ r ∈ jobs, r.workflow_name = w ∧ r.job_name = j ∧ r.duration_seconds = b := by
  unfold lastRuntime at h
  rw [Option.map_eq_some'] at h
  obtain ⟨r, hr, hd⟩ := h
  have hmem := List.mem_of_mem_getLast? (Option.mem_def.mpr hr)
  rw [List.mem_filter] at hmem
  obtain ⟨hmem, hp⟩ := hmem
  simp only [Bool.and_eq_true, beq_iff_eq] at hp
  exact ⟨r, hmem, hp.1, hp.2, hd⟩

theorem comparisonFor_eq_some {base pr : List Job} {w j : String} {comp : Comparison}
    (h : comparisonFor base pr w j = some comp) :
    ∃ b c, lastRuntime base w j = some b ∧ lastRuntime pr w j = some c ∧ b ≠ 0 ∧
      comp = ⟨j, b, c, ((c : ℚ) - (b : ℚ)) / (b : ℚ) * 100⟩ := by
  unfold comparisonFor at h
  cases hb : lastRuntime base w j with
  | none => rw [hb] at h; simp at h
  | some b =>
    cases hc : lastRuntime pr w j with
    | none => rw [hb, hc] at h; simp at h
    | some c =>
      rw [hb, hc] at h
      by_cases hz : b = 0
      · simp [hz] at h
      · simp only [hz, if_false, reduceIte] at h
        simp only [Option.some.injEq] at h
        exact ⟨b, c, rfl, rfl, hz, h.symm⟩

theorem mem_from_jobs_inv {base pr : List Job} {w : String} {cs : List Comparison}
    (h : (w, cs) ∈ from_jobs base pr) :
    cs = comparisonsFor base pr w ∧ cs ≠ [] := by
  unfold from_jobs at h
  rw [List.mem_filterMap] at h
  obtain ⟨w', _, hw⟩ := h
  simp only at hw
  by_cases he : (comparisonsFor base pr w').isEmpty
  · rw [if_pos he] at hw; exact absurd hw (by simp)
  · rw [if_neg he] at hw
    have h1 : w' = w ∧ comparisonsFor base pr w' = cs := by
      have := Option.some_inj.mp hw
      exact ⟨congrArg Prod.fst this, congrArg Prod.snd this⟩
    obtain ⟨hww, hcs⟩ := h1
    subst hww
    constructor
    · exact hcs.symm
    · intro hnil
      rw [← hcs] at hnil
      rw [hnil] at he
      exact he rfl

theorem mem_comparisonsFor_inv {base pr : List Job} {w : String} {comp : Comparison}
    (h : comp ∈ comparisonsFor base pr w) :
    ∃ j, comparisonFor base pr w j = some comp := by
  unfold comparisonsFor at h
  rw [List.mem_filterMap] at h
  obtain ⟨j, _, hj⟩ := h
  exact ⟨j, hj⟩

/-! ### Claims -/

/-- C1: if either the base job collection or the candidate (PR) job
collection is empty, `get_base_and_pr_jobs` fails with an empty-job-set
error ("No base jobs found!" / "No PR jobs found!") and no job pair — hence
no `ComparisonResult` — is produced. -/
theorem C1_empty_input_fails (base pr : List Job) (h : base = [] ∨ pr = []) :
    ∃ e, get_base_and_pr_jobs (.ok base) (fun _ => .ok pr) = .error e := by
  rcases h with h | h
  · subst h
    exact ⟨"No base jobs found!", rfl⟩
  · subst h
    by_cases hb : base.isEmpty
    · exact ⟨"No base jobs found!", by simp [get_base_and_pr_jobs, hb]⟩
    · exact ⟨"No PR jobs found!", by simp [get_base_and_pr_jobs, hb]⟩

theorem C1_empty_input_fails_witness :
    ∃ e, get_base_and_pr_jobs (.ok [])
        (fun _ => .ok [⟨"W", "build", 100⟩]) = .error e :=
  C1_empty_input_fails [] [⟨"W", "build", 100⟩] (Or.inl rfl)

/-- C9: with an empty base job collection the run fails with the base-side
error "No base jobs found!" regardless of the PR fetch — the PR fetch thunk
is never consulted, so an empty base set prevents the PR fetch entirely
(in particular this is the error when both collections are empty). -/
theorem C9_base_checked_first (fetchPr : Unit → Except String (List Job)) :
    get_base_and_pr_jobs (.ok []) fetchPr = .error "No base jobs found!" := rfl

/-- C4: the comparison and the rendered report are deterministic: on equal
inputs (job collections and context), repeated invocations produce
identical `ComparisonResult` structures and identical comment bodies, and
iteration order (list order of the result) is a function of the input
alone. -/
theorem C4_determinism (b₁ b₂ p₁ p₂ : List Job) (ctx : GithubContext)
    (hb : b₁ = b₂) (hp : p₁ = p₂) :
    from_jobs b₁ p₁ = from_jobs b₂ p₂ ∧
      format_comment_body ctx (from_jobs b₁ p₁) =
        format_comment_body ctx (from_jobs b₂ p₂) := by
  subst hb; subst hp; exact ⟨rfl, rfl⟩

theorem C4_determinism_witness :
    from_jobs [⟨"W", "build", 100⟩] [⟨"W", "build", 150⟩] =
        from_jobs [⟨"W", "build", 100⟩] [⟨"W", "build", 150⟩] ∧
      format_comment_body ⟨"0123456789abcdef", "linera-io", "linera-protocol"⟩
          (from_jobs [⟨"W", "build", 100⟩] [⟨"W", "build", 150⟩]) =
        format_comment_body ⟨"0123456789abcdef", "linera-io", "linera-protocol"⟩
          (from_jobs [⟨"W", "build", 100⟩] [⟨"W", "build", 150⟩]) :=
  C4_determinism [⟨"W", "build", 100⟩] [⟨"W", "build", 100⟩]
    [⟨"W", "build", 150⟩] [⟨"W", "build", 150⟩]
    ⟨"0123456789abcdef", "linera-io", "linera-protocol"⟩ rfl rfl

/-- C3: every emitted comparison's `runtime_difference_pct` equals
`((candidate - base) / base) * 100`; concretely, base `(W, "build", 100)`
and candidate `(W, "build", 150)` yield exactly one comparison, for
workflow `W`, job `"build"`, with `runtime_difference_pct = 50`. -/
theorem C3_delta_formula :
    (∀ (base pr : List Job) (w : String) (cs : List Comparison) (comp : Comparison),
        (w, cs) ∈ from_jobs base pr → comp ∈ cs →
        comp.runtime_difference_pct =
          ((comp.pr_runtime : ℚ) - (comp.base_runtime : ℚ)) /
            (comp.base_runtime : ℚ) * 100) ∧
      from_jobs [⟨"W", "build", 100⟩] [⟨"W", "build", 150⟩] =
        [("W", [⟨"build", 100, 150, 50⟩])] := by
  constructor
  · intro base pr w cs comp hw hc
    obtain ⟨hcs, _⟩ := mem_from_jobs_inv hw
    rw [hcs] at hc
    obtain ⟨j, hj⟩ := mem_comparisonsFor_inv hc
    obtain ⟨b, c, _, _, _, hcomp⟩ := comparisonFor_eq_some hj
    subst hcomp
    rfl
  · simp [from_jobs, comparisonsFor, comparisonFor, lastRuntime, firstSeen]
    norm_num

theorem C3_delta_formula_witness :
    Comparison.runtime_difference_pct ⟨"build", 100, 150, 50⟩ =
      ((Comparison.pr_runtime ⟨"build", 100, 150, 50⟩ : ℚ) -
          (Comparison.base_runtime ⟨"build", 100, 150, 50⟩ : ℚ)) /
        (Comparison.base_runtime ⟨"build", 100, 150, 50⟩ : ℚ) * 100 :=
  C3_delta_formula.1 [⟨"W", "build", 100⟩] [⟨"W", "build", 150⟩] "W"
    [⟨"build", 100, 150, 50⟩] ⟨"build", 100, 150, 50⟩
    (by simp [from_jobs, comparisonsFor, comparisonFor, lastRuntime, firstSeen]; norm_num)
    (by simp)

/-- C5: a matched job whose base runtime is 0 is omitted: every emitted
comparison has a positive base runtime, and the zero-base case never makes
the comparison fail (`from_jobs` is total) — concretely, base `(W, "x", 0)`
and candidate `(W, "x", 5)` produce the empty result, not an error and not
an infinite/NaN percentage. -/
theorem C5_zero_base_omitted :
    (∀ (base pr : List Job) (w : String) (cs : List Comparison) (comp : Comparison),
        (w, cs) ∈ from_jobs base pr → comp ∈ cs → 0 < comp.base_runtime) ∧
      from_jobs [⟨"W", "x", 0⟩] [⟨"W", "x", 5⟩] = [] := by
  constructor
  · intro base pr w cs comp hw hc
    obtain ⟨hcs, _⟩ := mem_from_jobs_inv hw
    rw [hcs] at hc
    obtain ⟨j, hj⟩ := mem_comparisonsFor_inv hc
    obtain ⟨b, c, _, _, hz, hcomp⟩ := comparisonFor_eq_some hj
    subst hcomp
    exact Nat.pos_of_ne_zero hz
  · simp [from_jobs, comparisonsFor, comparisonFor, lastRuntime, firstSeen]

theorem C5_zero_base_omitted_witness :
    0 < Comparison.base_runtime ⟨"build", 100, 150, 50⟩ :=
  C5_zero_base_omitted.1 [⟨"W", "build", 100⟩] [⟨"W", "build", 150⟩] "W"
    [⟨"build", 100, 150, 50⟩] ⟨"build", 100, 150, 50⟩
    (by simp [from_jobs, comparisonsFor, comparisonFor, lastRuntime, firstSeen]; norm_num)
    (by simp)

/-- C6: duplicate job names on one side resolve last-write-wins by input
order: appending a record for `(w, j)` makes its runtime the one used, and
concretely base records for `(W, "a")` with runtimes 10 then 20 and
candidate `(W, "a", 20)` yield one comparison using base runtime 20 with
`runtime_difference_pct = 0`. -/
theorem C6_last_write_wins :
    (∀ (jobs : List Job) (w j : String) (d : Nat),
        lastRuntime (jobs ++ [⟨w, j, d⟩]) w j = some d) ∧
      from_jobs [⟨"W", "a", 10⟩, ⟨"W", "a", 20⟩] [⟨"W", "a", 20⟩] =
        [("W", [⟨"a", 20, 20, 0⟩])] := by
  constructor
  · intro jobs w j d
    unfold lastRuntime
    rw [List.filter_append]
    have hx : List.filter (fun (r : Job) => r.workflow_name == w && r.job_name == j)
        ([⟨w, j, d⟩] : List Job) = [⟨w, j, d⟩] := by simp
    rw [hx, List.getLast?_concat]
    rfl
  · simp [from_jobs, comparisonsFor, comparisonFor, lastRuntime, firstSeen]

/-- C7: jobs present on only one side are excluded — every emitted
comparison's job name occurs in both the base and the candidate records of
its workflow — and the result contains only workflows with at least one
matched comparison; concretely, disjoint job sets for `W` leave `W` absent
entirely. -/
theorem C7_one_sided_excluded :
    (∀ (base pr : List Job) (w : String) (cs : List Comparison),
        (w, cs) ∈ from_jobs base pr → cs ≠ []) ∧
      (∀ (base pr : List Job) (w : String) (cs : List Comparison) (comp : Comparison),
        (w, cs) ∈ from_jobs base pr → comp ∈ cs →
        base.any (fun r => r.workflow_name == w && r.job_name == comp.job_name) = true ∧
          pr.any (fun r => r.workflow_name == w && r.job_name == comp.job_name) = true) ∧
      from_jobs [⟨"W", "a", 10⟩] [⟨"W", "b", 10⟩] = [] := by
  refine ⟨?_, ?_, ?_⟩
  · intro base pr w cs hw
    exact (mem_from_jobs_inv hw).2
  · intro base pr w cs comp hw hc
    obtain ⟨hcs, _⟩ := mem_from_jobs_inv hw
    rw [hcs] at hc
    obtain ⟨j, hj⟩ := mem_comparisonsFor_inv hc
    obtain ⟨b, c, hbase, hpr, _, hcomp⟩ := comparisonFor_eq_some hj
    obtain ⟨rb, hrb, hrbw, hrbj, _⟩ := lastRuntime_eq_some hbase
    obtain ⟨rp, hrp, hrpw, hrpj, _⟩ := lastRuntime_eq_some hpr
    have hname : comp.job_name = j := by rw [hcomp]
    constructor
    · rw [List.any_eq_true]
      exact ⟨rb, hrb, by simp [hrbw, hrbj, hname]⟩
    · rw [List.any_eq_true]
      exact ⟨rp, hrp, by simp [hrpw, hrpj, hname]⟩
  · simp [from_jobs, comparisonsFor, comparisonFor, lastRuntime, firstSeen]

theorem C7_one_sided_excluded_witness :
    ([(⟨"build", 100, 150, 50⟩ : Comparison)] ≠ []) ∧
      ([(⟨"W", "build", 100⟩ : Job)].any
          (fun r => r.workflow_name == "W" &&
            r.job_name == Comparison.job_name ⟨"build", 100, 150, 50⟩) = true ∧
        [(⟨"W", "build", 150⟩ : Job)].any
          (fun r => r.workflow_name == "W" &&
            r.job_name == Comparison.job_name ⟨"build", 100, 150, 50⟩) = true) :=
  ⟨C7_one_sided_excluded.1 [⟨"W", "build", 100⟩] [⟨"W", "build", 150⟩] "W"
      [⟨"build", 100, 150, 50⟩]
      (by simp [from_jobs, comparisonsFor, comparisonFor, lastRuntime, firstSeen]; norm_num),
    C7_one_sided_excluded.2.1 [⟨"W", "build", 100⟩] [⟨"W", "build", 150⟩] "W"
      [⟨"build", 100, 150, 50⟩] ⟨"build", 100, 150, 50⟩
      (by simp [from_jobs, comparisonsFor, comparisonFor, lastRuntime, firstSeen]; norm_num)
      (by simp)⟩

/-- A job source for the C2 scenario: given the filtered workflow list, it
returns one base job (runtime 10) and one PR job (runtime 20) per workflow,
in the list's order. -/
def c2JobsFor (ws : List String) : List Job × List Job :=
  (ws.map (fun w => ⟨w, "j", 10⟩), ws.map (fun w => ⟨w, "j", 20⟩))

/-- C2 counterexample: with fetched workflows discovered in order
["A", "B"], tracked workflows supplied in order ["B", "A"], and both
workflows matched, the result iterates "A" before "B" — the caller-supplied
order ["B", "A"] is not honored, because `init` filters the fetched list
(in its own order) by membership in the tracked `HashSet`. -/
theorem C2_tracked_order_counterexample :
    Except.map (fun (r : ComparisonResult) => r.map Prod.fst)
        (init ["A", "B"] ["B", "A"] c2JobsFor) = .ok ["A", "B"] ∧
      (Except.ok ["A", "B"] : Except String (List String)) ≠ .ok ["B", "A"] := by
  constructor
  · simp [init, c2JobsFor, filterTrackedWorkflows, get_base_and_pr_jobs, from_jobs,
      comparisonsFor, comparisonFor, lastRuntime, firstSeen, Except.map]
  · simp

/-- C2 (amended): the tracked-workflow input is an unordered set, so the
supplied order has no effect: for tracked inputs with the same membership
the whole run (workflow filtering, job fetch, comparison) produces
identical results; the workflow iteration order comes from the fetched
workflow data, not from the tracked input. -/
theorem C2_tracked_order_amended (fetched t t' : List String)
    (jobsFor : List String → List Job × List Job)
    (h : ∀ x, x ∈ t ↔ x ∈ t') :
    init fetched t jobsFor = init fetched t' jobsFor := by
  have hf : filterTrackedWorkflows fetched t = filterTrackedWorkflows fetched t' := by
    unfold filterTrackedWorkflows
    exact List.filter_congr (fun x _ => by simp [h x])
  unfold init
  rw [hf]

theorem C2_tracked_order_amended_witness :
    init ["A", "B"] ["B", "A"] c2JobsFor = init ["A", "B"] ["A", "B"] c2JobsFor :=
  C2_tracked_order_amended ["A", "B"] ["B", "A"] ["A", "B"] c2JobsFor
    (fun x => by simp [List.mem_cons]; tauto)

theorem is_char_boundary_le_length {s : List Nat} (hb : is_char_boundary s 7 = true) :
    7 ≤ s.length := by
  unfold is_char_boundary at hb
  rw [if_neg (by omega : ¬(7 = 0))] at hb
  cases hg : s.get? 7 with
  | none =>
    rw [hg] at hb
    have : 7 = s.length := by simpa using hb
    omega
  | some b =>
    have : 7 < s.length := List.get?_eq_some.mp hg |>.1
    omega

/-- C10: the slice `&commit_hash[..7]` of line 43 (modelled byte-exactly by
`short_commit_hash`) is panic-free if and only if the commit hash is at
least 7 bytes long and byte offset 7 is a character boundary; in
particular, for any hash shorter than 7 bytes the slice panics (`none`). -/
theorem C10_short_hash_slice :
    (∀ s : List Nat, (short_commit_hash s).isSome = true ↔
        (7 ≤ s.length ∧ is_char_boundary s 7 = true)) ∧
      ∀ s : List Nat, s.length < 7 → short_commit_hash s = none := by
  have hnone : ∀ s : List Nat, s.length < 7 → short_commit_hash s = none := by
    intro s hs
    unfold short_commit_hash
    rw [if_neg]
    intro hb
    exact absurd (is_char_boundary_le_length hb) (by omega)
  refine ⟨fun s => ?_, hnone⟩
  constructor
  · intro hsome
    unfold short_commit_hash at hsome
    by_cases hb : is_char_boundary s 7 = true
    · exact ⟨is_char_boundary_le_length hb, hb⟩
    · rw [if_neg hb] at hsome
      simp at hsome
  · intro ⟨_, hb⟩
    unfold short_commit_hash
    rw [if_pos hb]
    rfl

theorem C10_short_hash_slice_witness :
    short_commit_hash [97, 98, 99] = none :=
  C10_short_hash_slice.2 [97, 98, 99] (by decide)

theorem duration_base_infix_formatRow (c : Comparison) :
    (format_duration c.base_runtime).data <:+: (formatRow c).data :=
  ⟨("| " ++ c.job_name ++ " | ").data,
    (" | " ++ format_duration c.pr_runtime ++ " | " ++
      formatFixed2 c.runtime_difference_pct ++ "%" ++ " |\n").data,
    by simp [formatRow, string_data_append, List.append_assoc]⟩

theorem duration_pr_infix_formatRow (c : Comparison) :
    (format_duration c.pr_runtime).data <:+: (formatRow c).data :=
  ⟨("| " ++ c.job_name ++ " | " ++ format_duration c.base_runtime ++ " | ").data,
    (" | " ++ formatFixed2 c.runtime_difference_pct ++ "%" ++ " |\n").data,
    by simp [formatRow, string_data_append, List.append_assoc]⟩

theorem formatRow_infix_renderRows {c : Comparison} {cs : List Comparison} (h : c ∈ cs) :
    (formatRow c).data <:+: (renderRows cs).data := by
  induction cs with
  | nil => cases h
  | cons d rest ih =>
    have hd : (renderRows (d :: rest)).data =
        (formatRow d).data ++ (renderRows rest).data := by
      simp [renderRows, string_data_append]
    rcases List.mem_cons.mp h with h | h
    · subst h
      rw [hd]
      exact infix_append_of_infix_left (List.infix_refl _)
    · rw [hd]
      exact infix_append_of_infix_right (ih h)

theorem renderRows_infix_renderSection (wc : String × List Comparison) :
    (renderRows wc.2).data <:+: (renderSection wc).data :=
  ⟨("#### Workflow: " ++ wc.1 ++ "\n\n" ++
      "| Job Name | Base Runtime | PR Runtime | Runtime Difference (%) |\n" ++
      "|---|---|---|---|").data, ("\n" : String).data,
    by simp [renderSection, string_data_append, List.append_assoc]⟩

theorem renderSection_infix_renderSections {wc : String × List Comparison}
    {cmp : List (String × List Comparison)} (h : wc ∈ cmp) :
    (renderSection wc).data <:+: (renderSections cmp).data := by
  induction cmp with
  | nil => cases h
  | cons d rest ih =>
    have hd : (renderSections (d :: rest)).data =
        (renderSection d).data ++ (renderSections rest).data := by
      simp [renderSections, string_data_append]
    rcases List.mem_cons.mp h with h | h
    · subst h
      rw [hd]
      exact infix_append_of_infix_left (List.infix_refl _)
    · rw [hd]
      exact infix_append_of_infix_right (ih h)

theorem renderSections_infix_body (ctx : GithubContext) (cmp : ComparisonResult) :
    (renderSections cmp).data <:+: (format_comment_body ctx cmp).data :=
  ⟨(PR_COMMENT_HEADER ++ " [" ++ ctx.pr_commit_hash.take 7 ++ "](" ++
      ("https://github.com/" ++ ctx.owner ++ "/" ++ ctx.repo ++ "/commit/" ++
        ctx.pr_commit_hash) ++ ")\n\n" ++ "### CI Runtime Comparison\n\n").data, [],
    by simp [format_comment_body, string_data_append, List.append_assoc]⟩

theorem header_prefix_body (ctx : GithubContext) (cmp : ComparisonResult) :
    PR_COMMENT_HEADER.data <+: (format_comment_body ctx cmp).data :=
  ⟨(" [" ++ ctx.pr_commit_hash.take 7 ++ "](" ++
      ("https://github.com/" ++ ctx.owner ++ "/" ++ ctx.repo ++ "/commit/" ++
        ctx.pr_commit_hash) ++ ")\n\n" ++
      ("### CI Runtime Comparison\n\n" ++ renderSections cmp)).data,
    by simp [format_comment_body, string_data_append, List.append_assoc]⟩

/-- C8: every rendered comment body begins with the fixed header string
"## Performance Summary for commit" (the upsert key), and for every
comparison in the result, both its base and its candidate runtime appear in
the body as the human-readable `humantime`-formatted duration text, not as
raw seconds. -/
theorem C8_report_header_and_durations :
    (∀ (ctx : GithubContext) (cmp : ComparisonResult),
        PR_COMMENT_HEADER.data <+: (format_comment_body ctx cmp).data) ∧
      ∀ (ctx : GithubContext) (cmp : ComparisonResult) (w : String)
        (cs : List Comparison) (c : Comparison),
        (w, cs) ∈ cmp → c ∈ cs →
        (format_duration c.base_runtime).data <:+: (format_comment_body ctx cmp).data ∧
          (format_duration c.pr_runtime).data <:+: (format_comment_body ctx cmp).data := by
  refine ⟨header_prefix_body, ?_⟩
  intro ctx cmp w cs c hw hc
  have hrow := formatRow_infix_renderRows hc
  have hrows : (renderRows cs).data <:+: (renderSection (w, cs)).data :=
    renderRows_infix_renderSection (w, cs)
  have hsec := renderSection_infix_renderSections hw
  have hbody := renderSections_infix_body ctx cmp
  have hchain : (formatRow c).data <:+: (format_comment_body ctx cmp).data :=
    List.IsInfix.trans hrow
      (List.IsInfix.trans hrows (List.IsInfix.trans hsec hbody))
  exact ⟨ List.IsInfix.trans (duration_base_infix_formatRow c) hchain,
    List.IsInfix.trans (duration_pr_infix_formatRow c) hchain⟩

theorem C8_report_header_and_durations_witness :
    PR_COMMENT_HEADER.data <+:
        (format_comment_body ⟨"0000000deadbeef", "linera-io", "linera-protocol"⟩
          [("W", [⟨"build", 100, 150, 50⟩])]).data ∧
      (format_duration (Comparison.base_runtime ⟨"build", 100, 150, 50⟩)).data <:+:
        (format_comment_body ⟨"0000000deadbeef", "linera-io", "linera-protocol"⟩
          [("W", [⟨"build", 100, 150, 50⟩])]).data ∧
      (format_duration (Comparison.pr_runtime ⟨"build", 100, 150, 50⟩)).data <:+:
        (format_comment_body ⟨"0000000deadbeef", "linera-io", "linera-protocol"⟩
          [("W", [⟨"build", 100, 150, 50⟩])]).data :=
  ⟨C8_report_header_and_durations.1
      ⟨"0000000deadbeef", "linera-io", "linera-protocol"⟩
      [("W", [⟨"build", 100, 150, 50⟩])],
    C8_report_header_and_durations.2
      ⟨"0000000deadbeef", "linera-io", "linera-protocol"⟩
      [("W", [⟨"build", 100, 150, 50⟩])] "W" [⟨"build", 100, 150, 50⟩]
      ⟨"build", 100, 150, 50⟩ (by simp) (by simp)⟩

end LineraSummary
